import Mathlib

/-!
Verification of the document-search pipeline of the School-Tools repository
(`src/document_search/`), by a shallow embedding of its Python modules into
Lean 4.

Text is modelled as `List Char`.  The compiled regular-expression pattern of
`WordSearcher._compile_pattern` is modelled for literal (non-regex) search
terms: after `re.escape` the term matches as a verbatim string, optionally
wrapped in `\b ... \b` word-boundary assertions (`whole_word`) and matched
case-insensitively unless `case_sensitive` is set.  `re.finditer` is modelled
by a left-to-right scan that emits non-overlapping matches, advancing past
each match (one position past an empty match), following CPython `re`
semantics.
-/

namespace DocSearch

/-- Python's `\w` word-character class, restricted to ASCII
(letters, digits and underscore). -/
def isWordChar (c : Char) : Bool :=
  c.isAlpha || c.isDigit || c == '_'

/-- Character comparison under the searcher's case flag: exact when
`case_sensitive`, else after ASCII lowercasing (`re.IGNORECASE`). -/
def charEq (caseSensitive : Bool) (a b : Char) : Bool :=
  if caseSensitive then a == b else a.toLower == b.toLower

/-- Does `term` match verbatim at the head of `text`, under the case flag
(the literal-matching core of the compiled pattern)? -/
def litHere (caseSensitive : Bool) : List Char → List Char → Bool
  | [], _ => true
  | _ :: _, [] => false
  | a :: as, b :: bs => charEq caseSensitive a b && litHere caseSensitive as bs

/-- Is the character at index `i` of `text` a word character?
Out-of-range positions count as non-word (string edge). -/
def isWordAt (text : List Char) (i : Nat) : Bool :=
  match text.get? i with
  | some c => isWordChar c
  | none => false

/-- Python's `\b` word-boundary assertion at position `i` of `text`:
the word-character status changes between positions `i - 1` and `i`
(out-of-range counts as non-word). -/
def boundaryAt (text : List Char) (i : Nat) : Bool :=
  (if i = 0 then false else isWordAt text (i - 1)) != isWordAt text i

/-- The searcher configuration of `WordSearcher.__init__`
(literal search terms; the `use_regex` flag is handled separately at
pattern-compilation time). -/
structure WordSearcher where
  search_term : List Char
  case_sensitive : Bool
  whole_word : Bool
deriving Repr, DecidableEq

/-- One attempt of the compiled pattern at position `i` of `text`
(the pattern is `re.escape(term)`, wrapped in `\b...\b` when `whole_word`):
returns the end position of the match, if any.  The `\b` assertions are
zero-width, so the reported span is exactly that of the literal term. -/
def matchAt (s : WordSearcher) (text : List Char) (i : Nat) : Option Nat :=
  if litHere s.case_sensitive s.search_term (text.drop i) then
    let e := i + s.search_term.length
    if s.whole_word then
      if boundaryAt text i && boundaryAt text e then some e else none
    else some e
  else none

/-- The scan loop of `re.finditer`: try each position from `i` upward,
emit each match and resume at its end (one past it when the match is
empty).  `fuel` bounds the recursion; `text.length + 1 - i` suffices. -/
def finditerFrom (s : WordSearcher) (text : List Char) : Nat → Nat → List (Nat × Nat)
  | _, 0 => []
  | i, fuel + 1 =>
    if i > text.length then []
    else
      match matchAt s text i with
      | some e => (i, e) :: finditerFrom s text (if e = i then i + 1 else e) fuel
      | none => finditerFrom s text (i + 1) fuel

/-- `WordSearcher._find_matches_in_text`: the list of `(start, end)` spans of
all matches of the compiled pattern in `text`, via `re.finditer`. -/
def findMatchesInText (s : WordSearcher) (text : List Char) : List (Nat × Nat) :=
  finditerFrom s text 0 (text.length + 1)

/-- `re.Pattern.search`: the first position at which the pattern matches,
if any. -/
def searchPos (s : WordSearcher) (text : List Char) : Option Nat :=
  (List.range (text.length + 1)).find? (fun i => (matchAt s text i).isSome)

/-- `WordSearcher._search_text`: `bool(self.pattern.search(text))`. -/
def searchText (s : WordSearcher) (text : List Char) : Bool :=
  (searchPos s text).isSome

/-! ## Data model (`models.py`) and per-file search (`searcher.py`) -/

/-- `SearchMatch` (`models.py`): one matched text unit.  File paths are
modelled as lists of path components. -/
structure SearchMatch where
  file_path : List String
  context : List Char
  page_or_section : Option String
  match_positions : List (Nat × Nat)
deriving Repr, DecidableEq

/-- The parts of a parsed `python-docx` document that
`WordSearcher.search_document` scans: paragraphs, and tables as
rows of cells (each cell contributing its text). -/
structure DocxDocument where
  paragraphs : List (List Char)
  tables : List (List (List (List Char)))
deriving Repr, DecidableEq

/-- The outcome of `page.extract_text()` for one PDF page: the extracted
text (pypdf may return an empty string), or an exception raised during
extraction. -/
inductive PageResult where
  | ok (text : List Char)
  | raisedErr (msg : String)
deriving Repr, DecidableEq

/-- `WordSearcher.search_document`: scan paragraphs, then table cells, of a
parsed document, emitting one `SearchMatch` per text unit in which the
pattern is found.  `doc` is the outcome of `Document(str(file_path))`; an
exception there is caught, logged and yields the empty list. -/
def searchDocument (s : WordSearcher) (fp : List String)
    (doc : Except String DocxDocument) : List SearchMatch :=
  match doc with
  | .error _ => []
  | .ok d =>
    d.paragraphs.enum.filterMap (fun p =>
      if searchText s p.2 then
        some ⟨fp, p.2, some ("Paragraph " ++ toString (p.1 + 1)),
              findMatchesInText s p.2⟩
      else none) ++
    d.tables.enum.flatMap (fun t =>
      t.2.enum.flatMap (fun r =>
        r.2.enum.filterMap (fun c =>
          if searchText s c.2 then
            some ⟨fp, c.2,
                  some ("Table " ++ toString (t.1 + 1) ++ ", Row " ++
                        toString (r.1 + 1) ++ ", Column " ++ toString (c.1 + 1)),
                  findMatchesInText s c.2⟩
          else none)))

/-- The page loop of `WordSearcher.search_pdf`, starting at page index `n`.
A page whose extraction raises aborts the loop (the exception is caught at
function level, so the matches accumulated so far are returned).  A page is
scanned only when its text is truthy (`if text and ...`), i.e. non-empty. -/
def searchPdfLoop (s : WordSearcher) (fp : List String) (n : Nat) :
    List PageResult → List SearchMatch
  | [] => []
  | .raisedErr _ :: _ => []
  | .ok txt :: rest =>
    (if !txt.isEmpty && searchText s txt then
      [⟨fp, txt, some ("Page " ++ toString (n + 1)), findMatchesInText s txt⟩]
    else []) ++ searchPdfLoop s fp (n + 1) rest

/-- `WordSearcher.search_pdf`: `reader` is the outcome of opening the file
and constructing `PdfReader` (an exception there is caught and yields the
empty list); its pages are then scanned in order. -/
def searchPdf (s : WordSearcher) (fp : List String)
    (reader : Except String (List PageResult)) : List SearchMatch :=
  match reader with
  | .error _ => []
  | .ok pages => searchPdfLoop s fp 0 pages

instance {ε α : Type} [DecidableEq ε] [DecidableEq α] : DecidableEq (Except ε α) := fun a b =>
  match a, b with
  | .error x, .error y =>
    if h : x = y then isTrue (by rw [h]) else isFalse (by intro hh; cases hh; exact h rfl)
  | .ok x, .ok y =>
    if h : x = y then isTrue (by rw [h]) else isFalse (by intro hh; cases hh; exact h rfl)
  | .error _, .ok _ => isFalse (by intro h; cases h)
  | .ok _, .error _ => isFalse (by intro h; cases h)

/-- The parsed views of one on-disk file: the outcome of opening it with
`python-docx` and with `pypdf` respectively (opening a file with the wrong
parser, or a directory with either, raises, i.e. is an `error`). -/
structure FileData where
  asDocx : Except String DocxDocument
  asPdf : Except String (List PageResult)
deriving Repr, DecidableEq

/-- Index of the last `'.'` in a name, if any (Python `str.rfind('.')`). -/
def lastDotIdx (cs : List Char) : Option Nat :=
  ((List.range cs.length).filter (fun i => cs.get? i == some '.')).getLast?

/-- `pathlib.PurePath.suffix` of a file name: the substring from the last
dot, provided the dot is neither the first nor the last character
(`if 0 < i < len(name) - 1`); otherwise empty. -/
def pathSuffix (name : List Char) : List Char :=
  match lastDotIdx name with
  | some i => if 0 < i && i + 1 < name.length then name.drop i else []
  | none => []

/-- The file name (final component) of a path, `PurePath.name`. -/
def baseName (p : List String) : String :=
  p.getLastD ""

/-- `WordSearcher.process_file`: dispatch on the lowercased extension;
anything that is neither `.docx` nor `.pdf` yields no matches. -/
def processFile (s : WordSearcher) (fp : List String) (data : FileData) :
    List SearchMatch :=
  let sfx := (pathSuffix (baseName fp).data).map Char.toLower
  if sfx = ".docx".data then searchDocument s fp data.asDocx
  else if sfx = ".pdf".data then searchPdf s fp data.asPdf
  else []

/-! ## File collection (`WordSearcher._collect_files`)

A directory tree is modelled as a mutual inductive (directory listings are
ordered, as `os.scandir` order drives `os.walk` and `Path.glob`).  Glob
patterns are lists of path components, as in `pathlib.Path.glob`: the
patterns the tool uses are single-component (`*.docx`), but `Path.glob`
accepts multi-component patterns such as `sub/*.docx`. -/

mutual
inductive FSTree where
  | mk (subdirs : FSDirList) (files : List (String × FileData))
inductive FSDirList where
  | nil
  | cons (name : String) (tree : FSTree) (rest : FSDirList)
end

/-- The subdirectories of a listing as an ordinary list. -/
def dirsToList : FSDirList → List (String × FSTree)
  | .nil => []
  | .cons n t rest => (n, t) :: dirsToList rest

/-- One component of a glob pattern: `*`, `*.ext`, or a literal name. -/
inductive GlobComp where
  | star
  | starDot (ext : String)
  | lit (name : String)
deriving Repr, DecidableEq

/-- `fnmatch`-style matching of one pattern component against an entry
name (case-sensitive, POSIX behaviour). -/
def matchComp : GlobComp → String → Bool
  | .star, _ => true
  | .starDot e, n => ("." ++ e).data.isSuffixOf n.data
  | .lit s, n => n == s

/-- The `FileData` of a directory entry matched by a glob pattern: opening
a directory with either document parser raises. -/
def dirFileData : FileData :=
  ⟨.error "IsADirectoryError", .error "IsADirectoryError"⟩

/-- `Path.glob` rooted at a tree node: relative paths (with their parsed
file data) of the entries matching the pattern.  The final component
matches files and subdirectories alike; earlier components descend into
subdirectories regardless of any walk-level pruning. -/
def globFrom : List GlobComp → FSTree → List (List String × FileData)
  | [], _ => []
  | [c], .mk subs files =>
    (files.filter (fun f => matchComp c f.1)).map (fun f => ([f.1], f.2)) ++
    ((dirsToList subs).filter (fun d => matchComp c d.1)).map
      (fun d => ([d.1], dirFileData))
  | c :: c2 :: rest, .mk subs _ =>
    ((dirsToList subs).filter (fun d => matchComp c d.1)).flatMap
      (fun d => (globFrom (c2 :: rest) d.2).map (fun h => (d.1 :: h.1, h.2)))

mutual
/-- `WordSearcher._collect_files`: `os.walk` from the root, pruning
subdirectories whose name is in `exclude` in place before descending, and
at every visited directory extending the result with `Path(root).glob(p)`
for each pattern `p`, in order. -/
def collectFiles (pats : List (List GlobComp)) (exclude : List String) :
    FSTree → List (List String × FileData)
  | .mk subs files =>
    pats.flatMap (fun p => globFrom p (.mk subs files)) ++
    collectFromDirs pats exclude subs

/-- Walk into the (pruned) subdirectories of a listing, in order. -/
def collectFromDirs (pats : List (List GlobComp)) (exclude : List String) :
    FSDirList → List (List String × FileData)
  | .nil => []
  | .cons n t rest =>
    (if n ∈ exclude then []
     else (collectFiles pats exclude t).map (fun h => (n :: h.1, h.2))) ++
    collectFromDirs pats exclude rest
end

/-- `constants.DEFAULT_PATTERNS = ["*.docx", "*.pdf"]`. -/
def DEFAULT_PATTERNS : List (List GlobComp) :=
  [[.starDot "docx"], [.starDot "pdf"]]

/-- `constants.EXCLUDED_DIRS = {".git", "__pycache__", "venv", ".venv"}`. -/
def EXCLUDED_DIRS : List String :=
  [".git", "__pycache__", "venv", ".venv"]

/-- `WordSearcher.search_recursive`: apply the falsy-or defaults to the
pattern list and exclusion set, collect files, and (absent any files)
report; otherwise process every collected file and concatenate the match
lists (the thread pool fans in all per-file results; our model fixes
submission order, which no verified property depends on).  Returns the
matches together with the messages printed. -/
def searchRecursive (s : WordSearcher) (root : FSTree)
    (filePatterns : List (List GlobComp)) (excludeDirs : List String) :
    List SearchMatch × List String :=
  let pats := if filePatterns.isEmpty then DEFAULT_PATTERNS else filePatterns
  let excl := if excludeDirs.isEmpty then EXCLUDED_DIRS else excludeDirs
  let files := collectFiles pats excl root
  if files.isEmpty then ([], ["No matching files found."])
  else (files.flatMap (fun f => processFile s f.1 f.2), [])

/-! ## Exporters (`exporter.py`, `utils.py`)

An exporter run is modelled as the ordered trace of its `f.write` calls,
each tagged with the call site that produced it.  The static CSS block of
the HTML preamble is presentational only and is elided from the header
string. -/

/-- `html.escape(c, quote=True)` for one character. -/
def htmlEscapeChar (c : Char) : List Char :=
  if c = '&' then "&amp;".data
  else if c = '<' then "&lt;".data
  else if c = '>' then "&gt;".data
  else if c = Char.ofNat 34 then "&quot;".data
  else if c = Char.ofNat 39 then "&#x27;".data
  else [c]

/-- `html.escape` with `quote=True` (the default). -/
def htmlEscape (cs : List Char) : List Char :=
  cs.flatMap htmlEscapeChar

/-- Python slicing `cs[a:b]` (clamped at both ends). -/
def sliceChars (cs : List Char) (a b : Nat) : List Char :=
  (cs.take b).drop a

/-- Split on runs of whitespace, dropping empty words (`str.split()`). -/
def splitWhitespaceAux : List Char → List Char → List (List Char)
  | [], cur => if cur.isEmpty then [] else [cur.reverse]
  | c :: rest, cur =>
    if c.isWhitespace then
      (if cur.isEmpty then [] else [cur.reverse]) ++ splitWhitespaceAux rest []
    else splitWhitespaceAux rest (c :: cur)

/-- `str.split()` with no separator argument. -/
def splitWhitespace (cs : List Char) : List (List Char) :=
  splitWhitespaceAux cs []

/-- `" ".join(words)`. -/
def joinWords (ws : List (List Char)) : List Char :=
  List.intercalate " ".data ws

/-- One step of the greedy fill loop of `utils.wrap_text`: state is
(finished lines, words of the current line, current line length). -/
def wrapStep (maxW : Nat) (st : List (List Char) × List (List Char) × Nat)
    (w : List Char) : List (List Char) × List (List Char) × Nat :=
  let sep := if st.2.1.isEmpty then 0 else 1
  if st.2.2 + w.length + sep ≤ maxW then
    (st.1, st.2.1 ++ [w], st.2.2 + sep + w.length)
  else
    (st.1 ++ [joinWords st.2.1], [w], w.length)

/-- `utils.wrap_text`: wrap to `maxW` columns without breaking words; an
empty paragraph yields one empty line, and a whitespace-only paragraph
yields no line. -/
def wrapText (text : List Char) (maxW : Nat) : List Char :=
  let lines := (text.splitOn '\n').flatMap (fun p =>
    if p.isEmpty then [([] : List Char)]
    else
      let st := (splitWhitespace p).foldl (wrapStep maxW) ([], [], 0)
      st.1 ++ (if st.2.1.isEmpty then [] else [joinWords st.2.1]))
  List.intercalate ['\n'] lines

/-- `sorted(positions, reverse=True)`: descending lexicographic order. -/
def sortPosDesc (ps : List (Nat × Nat)) : List (Nat × Nat) :=
  List.insertionSort (fun a b => b.1 < a.1 ∨ (a.1 = b.1 ∧ b.2 ≤ a.2)) ps

/-- The highlight loop of `export_html`: escape the context, then splice
`<mark>` tags in at each match span, iterating positions in descending
order (the spans index the escaped string with offsets computed on the raw
context, exactly as the source does). -/
def highlightHtml (context : List Char) (positions : List (Nat × Nat)) : List Char :=
  (sortPosDesc positions).foldl
    (fun acc se =>
      acc.take se.1 ++ "<mark>".data ++ htmlEscape (sliceChars context se.1 se.2) ++
      "</mark>".data ++ acc.drop se.2)
    (htmlEscape context)

/-- `str(Path)` of a component-list path. -/
def pathToString (p : List String) : String :=
  String.intercalate "/" p

/-- One `f.write` call of an exporter, tagged by call site:
`header`/`footer` are the fixed preamble and closing writes,
`groupHeader`/`closeGroup` the per-file grouping writes, and
`sectionHead`/`body` (HTML) resp. `matchEntry` (Markdown, text) the
writes rendering one `SearchMatch`. -/
inductive WriteEvent where
  | header (s : String)
  | groupHeader (s : String)
  | closeGroup (s : String)
  | sectionHead (s : String)
  | body (s : String)
  | matchEntry (s : String)
  | footer (s : String)
deriving Repr, DecidableEq

/-- `ResultExporter.__init__`: term, resolved directory, and the two
timestamp strings taken once at construction time (opaque to the model). -/
structure ResultExporter where
  search_term : List Char
  directory : String
  timestamp : String
  formatted_date : String
deriving Repr, DecidableEq

/-- The HTML preamble written by `export_html` (static CSS elided). -/
def htmlHeader (e : ResultExporter) : String :=
  "<!DOCTYPE html><html lang=\"en\"><head><meta charset=\"UTF-8\"><title>Search Results: " ++
  String.mk (htmlEscape e.search_term) ++
  "</title></head><body><div class=\"header\"><h1>Search Results</h1></div>" ++
  "<div class=\"meta\"><div><strong>Search Term:</strong> " ++
  String.mk (htmlEscape e.search_term) ++
  "</div><div><strong>Directory:</strong> " ++
  String.mk (htmlEscape e.directory.data) ++
  "</div><div><strong>Date:</strong> " ++ e.formatted_date ++ "</div></div>"

/-- The closing write of `export_html` (back-to-top button and tags). -/
def htmlFooter : String :=
  "<button class=\"top-btn\">Top</button></body></html>"

/-- The per-result loop of `export_html`, carrying `current_file`. -/
def exportHtmlLoop (current : Option (List String)) :
    List SearchMatch → List WriteEvent
  | [] =>
    match current with
    | some _ => [.closeGroup "</div>\n"]
    | none => []
  | r :: rest =>
    (if current = some r.file_path then []
     else
       (match current with
        | some _ => [WriteEvent.closeGroup "</div>\n"]
        | none => []) ++
       [.groupHeader ("<div class=\"result-file\"><h2>" ++
          String.mk (htmlEscape (pathToString r.file_path).data) ++ "</h2>\n")]) ++
    [.sectionHead ("<h3>" ++
       String.mk (htmlEscape (r.page_or_section.getD "").data) ++ "</h3>\n"),
     .body ("<p><code>" ++
       String.mk (highlightHtml r.context r.match_positions) ++ "</code></p>\n")] ++
    exportHtmlLoop (some r.file_path) rest

/-- `ResultExporter.export_html` as its trace of writes. -/
def exportHtml (e : ResultExporter) (results : List SearchMatch) : List WriteEvent :=
  .header (htmlHeader e) :: (exportHtmlLoop none results ++ [.footer htmlFooter])

/-- The per-result loop of `export_markdown`. -/
def exportMarkdownLoop (current : Option (List String)) :
    List SearchMatch → List WriteEvent
  | [] => []
  | r :: rest =>
    (if current = some r.file_path then []
     else [WriteEvent.groupHeader ("\n## " ++ pathToString r.file_path ++ "\n\n")]) ++
    [.matchEntry ("### " ++ r.page_or_section.getD "" ++ "\n\n```\n" ++
       String.mk (wrapText r.context 100) ++ "\n```\n\n")] ++
    exportMarkdownLoop (some r.file_path) rest

/-- `ResultExporter.export_markdown` as its trace of writes. -/
def exportMarkdown (e : ResultExporter) (results : List SearchMatch) : List WriteEvent :=
  [.header ("# Search Results: \"" ++ String.mk e.search_term ++ "\"\n\n"),
   .header ("**Directory:** " ++ e.directory ++ "\n"),
   .header ("**Date:** " ++ e.formatted_date ++ "\n\n")] ++
  exportMarkdownLoop none results

/-- A line of 50 `=` characters. -/
def eqLine : String := String.mk (List.replicate 50 '=')

/-- A line of 40 `-` characters. -/
def dashLine : String := String.mk (List.replicate 40 '-')

/-- The per-result loop of `export_text`. -/
def exportTextLoop (current : Option (List String)) :
    List SearchMatch → List WriteEvent
  | [] => []
  | r :: rest =>
    (if current = some r.file_path then []
     else [WriteEvent.groupHeader ("\n" ++ eqLine ++ "\n" ++
             pathToString r.file_path ++ "\n" ++ eqLine ++ "\n\n")]) ++
    [.matchEntry ("\n" ++ r.page_or_section.getD "" ++ ":\n" ++ dashLine ++ "\n" ++
       String.mk (wrapText r.context 100) ++ "\n" ++ dashLine ++ "\n")] ++
    exportTextLoop (some r.file_path) rest

/-- `ResultExporter.export_text` as its trace of writes. -/
def exportText (e : ResultExporter) (results : List SearchMatch) : List WriteEvent :=
  [.header ("Search Results: \"" ++ String.mk e.search_term ++ "\"\n" ++ eqLine ++ "\n\n"),
   .header ("Directory: " ++ e.directory ++ "\n"),
   .header ("Date: " ++ e.formatted_date ++ "\n\n")] ++
  exportTextLoop none results

/-- `str.lower()` (ASCII), as used on the format name by
`ResultExporter.export`. -/
def strLower (s : String) : String :=
  String.mk (s.data.map Char.toLower)

/-- The format names accepted by `ResultExporter.export`. -/
def VALID_FORMATS : List String := ["html", "markdown", "txt", "md", "text"]

/-- `ResultExporter.export`: refuse an empty result list or an unsupported
format (printing a message and returning `None`); otherwise dispatch to the
format's writer.  The returned pair is the extension of the file written
(per `_get_export_path`) and its write trace. -/
def exportResults (e : ResultExporter) (results : List SearchMatch)
    (formatType : String) : Option (String × List WriteEvent) :=
  if results.isEmpty then none
  else
    let fmt := strLower formatType
    if fmt ∈ VALID_FORMATS then
      if fmt = "html" then some ("html", exportHtml e results)
      else if fmt = "markdown" || fmt = "md" then some ("md", exportMarkdown e results)
      else some ("txt", exportText e results)
    else none

/-- Does a write event render one `SearchMatch` (the `<h3>` write in HTML,
the single per-match write in Markdown and text)? -/
def isEntryEvent : WriteEvent → Bool
  | .sectionHead _ => true
  | .matchEntry _ => true
  | _ => false

/-- The number of rendered match entries in an export trace. -/
def entryCount (evs : List WriteEvent) : Nat :=
  (evs.filter isEntryEvent).length

/-! ## Pattern compilation errors and the top-level pipeline
(`searcher.py: execute_search`, `main.py: main`) -/

/-- Is `c` one of the quantifier characters `*`, `+`, `?` of the modelled
slice of `re` syntax? -/
def isQuantChar (c : Char) : Bool :=
  c = '*' || c = '+' || c = '?'

/-- May `c` stand alone as a plain literal in a pattern?  Every `re`
metacharacter is excluded, including `{` and `}` (which Python sometimes
accepts as literals — the checker is conservative and refuses them). -/
def plainLit (c : Char) : Bool :=
  !(c = '(' || c = ')' || c = '[' || c = ']' || c = '{' || c = '}' ||
    c = '*' || c = '+' || c = '?' || c = '|' || c = '\\' || c = '^' ||
    c = '$' || c = '.')

/-- Escapes that form a quantifiable atom: any non-alphanumeric character
(escaped metacharacters and punctuation), the character classes
`\d \D \s \S \w \W` and the literal escapes `\a \f \n \r \t \v`.
Alphanumeric escapes outside this list (unknown letter escapes, octal and
group references) are refused — Python raises for unknown letter escapes
and for references to missing groups, and the checker must never accept a
term `re.compile` rejects. -/
def escQuantifiable (c : Char) : Bool :=
  !c.isAlphanum ||
  c = 'd' || c = 'D' || c = 's' || c = 'S' || c = 'w' || c = 'W' ||
  c = 'a' || c = 'f' || c = 'n' || c = 'r' || c = 't' || c = 'v'

/-- Zero-width anchor escapes `\A \b \B \Z`: valid atoms, but a quantifier
after them makes `re.compile` raise `nothing to repeat`. -/
def escAnchorChar (c : Char) : Bool :=
  c = 'A' || c = 'b' || c = 'B' || c = 'Z'

/-- The body of a character set after its opening bracket (and optional
`^` and leading literal `]`): plain members restricted to alphanumerics,
space and underscore (ranges with `-` are refused, since `[z-a]` raises),
plus the class-valid escapes; reaching `]` closes the set, running out of
input is `unterminated character set`. -/
def classBody : List Char → Option (List Char)
  | [] => none
  | ']' :: rest => some rest
  | '\\' :: e :: rest =>
    if !e.isAlphanum ||
       e = 'd' || e = 'D' || e = 's' || e = 'S' || e = 'w' || e = 'W' ||
       e = 'a' || e = 'b' || e = 'f' || e = 'n' || e = 'r' || e = 't' || e = 'v'
    then classBody rest else none
  | c :: rest =>
    if c.isAlphanum || c = ' ' || c = '_' then classBody rest else none

/-- A character set after its opening `[`: optional negating `^`, then an
optional leading `]` taken as a literal member, then the body. -/
def classTail (cs : List Char) : Option (List Char) :=
  let cs1 := match cs with
    | '^' :: r => r
    | _ => cs
  let cs2 := match cs1 with
    | ']' :: r => r
    | _ => cs1
  classBody cs2

mutual
/-- One atom of the modelled `re` grammar: `.`, the anchors `^` `$`, an
escape, a parenthesised group (plain groups only — `(?...)` extensions are
refused), a character set, or a plain literal.  Returns whether the atom
may carry a quantifier, and the remaining input. -/
def parseAtom : Nat → List Char → Option (Bool × List Char)
  | 0, _ => none
  | _ + 1, [] => none
  | fuel + 1, c :: rest =>
    if c = '.' then some (true, rest)
    else if c = '^' || c = '$' then some (false, rest)
    else if c = '\\' then
      match rest with
      | [] => none
      | e :: rest2 =>
        if escAnchorChar e then some (false, rest2)
        else if escQuantifiable e then some (true, rest2)
        else none
    else if c = '(' then
      match parseAlt fuel rest with
      | some (')' :: rest2) => some (true, rest2)
      | _ => none
    else if c = '[' then
      match classTail rest with
      | some rest2 => some (true, rest2)
      | none => none
    else if plainLit c then some (true, rest)
    else none

/-- A concatenation: a (possibly empty) sequence of atoms, each optionally
followed by one quantifier with an optional lazy `?`.  A quantifier with
no preceding atom, after an anchor, or directly after another quantifier
makes `re.compile` raise (`nothing to repeat` / `multiple repeat`), so all
three shapes are refused.  Stops at `|`, `)` or the end of input. -/
def parseConcat : Nat → List Char → Option (List Char)
  | 0, _ => none
  | fuel + 1, cs =>
    match cs with
    | [] => some []
    | c :: rest =>
      if c = '|' || c = ')' then some (c :: rest)
      else
        match parseAtom fuel (c :: rest) with
        | none => none
        | some (q, rest2) =>
          match rest2 with
          | c2 :: rest3 =>
            if isQuantChar c2 then
              if q then
                parseConcat fuel (match rest3 with
                  | '?' :: r4 => r4
                  | _ => rest3)
              else none
            else parseConcat fuel rest2
          | [] => some []

/-- An alternation: `|`-separated concatenations (empty branches are
valid).  Stops at `)` or the end of input. -/
def parseAlt : Nat → List Char → Option (List Char)
  | 0, _ => none
  | fuel + 1, cs =>
    match parseConcat fuel cs with
    | none => none
    | some ('|' :: rest) => parseAlt fuel rest
    | some rest => some rest
end

/-- The model of `re.compile`'s syntax validation: a conservative
recursive-descent check of a core slice of Python `re` syntax.  It accepts
a term only if the whole input parses as an alternation with nothing left
over (a stray `)` is `unbalanced parenthesis`); every accepted construct
is valid for `re.compile`, while some valid Python patterns (range
quantifiers `{m,n}`, `(?...)` extensions, class ranges, octal and group
references, literal `{`/`}`) are conservatively refused.  In particular
`(`, `[`, `*`, `^*`, `a**` and bad escapes are all rejected, as Python
rejects them. -/
def regexSyntaxOk (cs : List Char) : Bool :=
  match parseAlt (3 * cs.length + 4) cs with
  | some [] => true
  | _ => false

/-- `WordSearcher._compile_pattern`, with its failure behaviour made
explicit: in regex mode a term that fails the (conservative) syntax check
makes `re.compile` raise `re.error`, which `__init__` does not catch;
otherwise the compiled matcher is the searcher configuration.  The
matcher's runtime semantics (`matchAt` etc.) are those of a literal term,
faithful to non-regex mode (where `re.escape` is applied) and to regex
terms free of metacharacters. -/
def compilePattern (term : List Char) (caseSensitive wholeWord useRegex : Bool) :
    Except String WordSearcher :=
  if useRegex && !regexSyntaxOk term then
    .error "re.error"
  else
    .ok ⟨term, caseSensitive, wholeWord⟩

/-- The search-parameter dictionary handed to `execute_search`
(`directory_label` stands for `str(directory.resolve())`, used only in
export headers). -/
structure SearchParams where
  search_term : List Char
  case_sensitive : Bool
  whole_word : Bool
  use_regex : Bool
  directory : FSTree
  directory_label : String
  file_patterns : List (List GlobComp)
  exclude : List String
  export_format : Option String

/-- What a completed `execute_search` produced: the aggregated matches,
the report messages printed, and the export performed (if any). -/
structure RunOutput where
  results : List SearchMatch
  messages : List String
  exported : Option (String × List WriteEvent)
deriving Repr, DecidableEq

/-- `execute_search`: build the searcher (pattern compilation errors
propagate as uncaught exceptions), run the recursive search, report the
match count or `"No matches found."`, and export only when a format was
requested and the result list is non-empty. -/
def executeSearch (p : SearchParams) : Except String RunOutput :=
  match compilePattern p.search_term p.case_sensitive p.whole_word p.use_regex with
  | .error e => .error e
  | .ok s =>
    let run := searchRecursive s p.directory p.file_patterns p.exclude
    let results := run.1
    let resultMsg :=
      if results.isEmpty then "No matches found."
      else "Found " ++ toString results.length ++ " matches in " ++
           toString ((results.map (fun m => m.file_path)).dedup).length ++ " documents."
    let exported :=
      match p.export_format with
      | some fmt =>
        if results.isEmpty then none
        else exportResults ⟨p.search_term, p.directory_label, "", ""⟩ results fmt
      | none => none
    .ok ⟨results, run.2 ++ [resultMsg] ++
          (match exported with | some _ => ["Results exported."] | none => []),
         exported⟩

/-- The text units of a parsed document in scan order: paragraphs, then
table cells row by row. -/
def unitsOf (d : DocxDocument) : List (List Char) :=
  d.paragraphs ++ d.tables.flatMap (fun t => t.flatMap (fun r => r))

/-- The well-formedness invariant of an emitted record's `match_positions`:
non-empty, strictly ascending in start position, pairwise non-overlapping,
and every span within the bounds of the record's context. -/
def PositionsWf (m : SearchMatch) : Prop :=
  m.match_positions ≠ [] ∧
  List.Pairwise (fun p q : Nat × Nat => p.1 < q.1 ∧ p.2 ≤ q.1) m.match_positions ∧
  ∀ pr ∈ m.match_positions, pr.1 ≤ pr.2 ∧ pr.2 ≤ m.context.length

/-! ## Concrete instances used by counterexamples and witnesses -/

/-- A default searcher: literal term `test`, case-insensitive, not
whole-word. -/
def sTest : WordSearcher := ⟨"test".data, false, false⟩

/-- A one-paragraph document containing one occurrence of `test`. -/
def docTest : DocxDocument := ⟨["a test".data], []⟩

/-- An on-disk `.docx` file holding `docTest` (reading it as a PDF
raises). -/
def fdTest : FileData := ⟨.ok docTest, .error "PdfReadError"⟩

/-- The single record produced by searching `docTest` for `test`. -/
def oneMatch : SearchMatch :=
  ⟨["d.docx"], "a test".data, some "Paragraph 1", [(2, 6)]⟩

/-- The single record produced by searching the paragraph `a a` for `a`. -/
def oneAMatch : SearchMatch :=
  ⟨["d.docx"], "a a".data, some "Paragraph 1", [(0, 1), (2, 3)]⟩

/-- A root directory containing only the subdirectory `docs/a.docx`. -/
def treeDocs : FSTree := .mk (.cons "docs" (.mk .nil [("a.docx", fdTest)]) .nil) []

/-- A root directory containing only the subdirectory `venv/a.docx`. -/
def treeVenv : FSTree := .mk (.cons "venv" (.mk .nil [("a.docx", fdTest)]) .nil) []

/-- A root directory containing only the file `a.docx`. -/
def treeDup : FSTree := .mk .nil [("a.docx", fdTest)]

/-- An empty root directory. -/
def emptyTree : FSTree := .mk .nil []

/-- CLI-mode parameters over an empty directory, with an export format
requested. -/
def pEmpty : SearchParams :=
  ⟨"test".data, false, false, false, emptyTree, "/root", [], [], some "html"⟩

/-- The run output of `executeSearch pEmpty`. -/
def outEmpty : RunOutput :=
  ⟨[], ["No matching files found.", "No matches found."], none⟩

/-! ## Lemmas about the matcher -/

theorem litHere_length {cs : Bool} :
    ∀ {term l : List Char}, litHere cs term l = true → term.length ≤ l.length
  | [], _, _ => Nat.zero_le _
  | _ :: _, [], h => by simp [litHere] at h
  | a :: as, b :: bs, h => by
    simp only [litHere, Bool.and_eq_true] at h
    simpa [Nat.succ_le_succ_iff] using @litHere_length cs as bs h.2

theorem matchAt_end_eq {s : WordSearcher} {text : List Char} {i e : Nat}
    (h : matchAt s text i = some e) : e = i + s.search_term.length := by
  unfold matchAt at h
  split_ifs at h <;> simp_all

theorem matchAt_lit {s : WordSearcher} {text : List Char} {i e : Nat}
    (h : matchAt s text i = some e) :
    litHere s.case_sensitive s.search_term (text.drop i) = true := by
  unfold matchAt at h
  split_ifs at h with h1 <;> simp_all

theorem matchAt_end_le {s : WordSearcher} {text : List Char} {i e : Nat}
    (h : matchAt s text i = some e) (hi : i ≤ text.length) : e ≤ text.length := by
  have h1 := litHere_length (matchAt_lit h)
  rw [List.length_drop] at h1
  have := matchAt_end_eq h
  omega

theorem matchAt_boundaries {s : WordSearcher} {text : List Char} {i e : Nat}
    (hw : s.whole_word = true) (h : matchAt s text i = some e) :
    boundaryAt text i = true ∧ boundaryAt text e = true := by
  unfold matchAt at h
  rw [hw] at h
  split_ifs at h with h1 h2 <;> simp_all
  exact h.2 ▸ h.1.2

theorem finditerFrom_mem {s : WordSearcher} {text : List Char} :
    ∀ {fuel i : Nat} {pr : Nat × Nat}, pr ∈ finditerFrom s text i fuel →
      i ≤ pr.1 ∧ pr.1 ≤ text.length ∧ matchAt s text pr.1 = some pr.2
  | 0, i, pr, h => by simp [finditerFrom] at h
  | fuel + 1, i, pr, h => by
    unfold finditerFrom at h
    split_ifs at h with hgt
    · simp at h
    · cases hm : matchAt s text i with
      | some e =>
        rw [hm] at h
        rcases List.mem_cons.mp h with h1 | h2
        · subst h1
          exact ⟨Nat.le_refl _, by omega, hm⟩
        · have ih := finditerFrom_mem h2
          have he : i ≤ e := (matchAt_end_eq hm) ▸ Nat.le_add_right _ _
          refine ⟨?_, ih.2.1, ih.2.2⟩
          split_ifs at ih with hei <;> omega
      | none =>
        rw [hm] at h
        have ih := finditerFrom_mem h
        exact ⟨by omega, ih.2.1, ih.2.2⟩

theorem finditerFrom_chain {s : WordSearcher} {text : List Char} :
    ∀ (fuel i : Nat),
      List.Chain' (fun p q : Nat × Nat => p.1 < q.1 ∧ p.2 ≤ q.1)
        (finditerFrom s text i fuel)
  | 0, i => by simp [finditerFrom]
  | fuel + 1, i => by
    unfold finditerFrom
    split_ifs with hgt
    · simp
    · cases hm : matchAt s text i with
      | some e =>
        rw [List.chain'_cons']
        refine ⟨?_, finditerFrom_chain fuel _⟩
        intro q hq
        have hqm := finditerFrom_mem (List.mem_of_mem_head? hq)
        have he : e = i + s.search_term.length := matchAt_end_eq hm
        split_ifs at hqm with hei <;> (constructor <;> omega)
      | none => exact finditerFrom_chain fuel (i + 1)

theorem finditerFrom_eq_nil {s : WordSearcher} {text : List Char} :
    ∀ {fuel i : Nat}, text.length + 1 ≤ i + fuel →
      finditerFrom s text i fuel = [] →
      ∀ j, i ≤ j → j ≤ text.length → matchAt s text j = none
  | 0, i, hfuel, _, j, hij, hj => by omega
  | fuel + 1, i, hfuel, hnil, j, hij, hj => by
    unfold finditerFrom at hnil
    split_ifs at hnil with hgt
    · omega
    · cases hm : matchAt s text i with
      | some e => rw [hm] at hnil; simp at hnil
      | none =>
        rw [hm] at hnil
        rcases Nat.eq_or_lt_of_le hij with rfl | hlt
        · exact hm
        · exact finditerFrom_eq_nil (by omega) hnil j (by omega) hj

theorem searchText_iff_exists {s : WordSearcher} {text : List Char} :
    searchText s text = true ↔
      ∃ j, j ≤ text.length ∧ (matchAt s text j).isSome = true := by
  unfold searchText searchPos
  rw [List.find?_isSome]
  constructor
  · rintro ⟨j, hj, hja⟩
    exact ⟨j, by simpa [Nat.lt_succ_iff] using List.mem_range.mp hj, hja⟩
  · rintro ⟨j, hj, hja⟩
    exact ⟨j, List.mem_range.mpr (by omega), hja⟩

theorem searchText_iff_findMatches {s : WordSearcher} {text : List Char} :
    searchText s text = true ↔ findMatchesInText s text ≠ [] := by
  constructor
  · intro h hnil
    rcases searchText_iff_exists.mp h with ⟨j, hj, hja⟩
    have := @finditerFrom_eq_nil s text (text.length + 1) 0
      (by omega) hnil j (Nat.zero_le _) hj
    rw [this] at hja
    simp at hja
  · intro h
    rcases List.exists_mem_of_ne_nil _ h with ⟨pr, hpr⟩
    have hm := finditerFrom_mem hpr
    exact searchText_iff_exists.mpr ⟨pr.1, hm.2.1, by rw [hm.2.2]; rfl⟩

theorem findMatches_bounds {s : WordSearcher} {text : List Char} :
    ∀ pr ∈ findMatchesInText s text, pr.1 ≤ pr.2 ∧ pr.2 ≤ text.length := by
  intro pr hpr
  have hm := finditerFrom_mem hpr
  have he := matchAt_end_eq hm.2.2
  exact ⟨by omega, matchAt_end_le hm.2.2 hm.2.1⟩

theorem findMatches_chain {s : WordSearcher} {text : List Char} :
    List.Chain' (fun p q : Nat × Nat => p.1 < q.1 ∧ p.2 ≤ q.1)
      (findMatchesInText s text) :=
  finditerFrom_chain _ _

theorem findMatches_boundaries {s : WordSearcher} {text : List Char}
    (hw : s.whole_word = true) :
    ∀ pr ∈ findMatchesInText s text,
      boundaryAt text pr.1 = true ∧ boundaryAt text pr.2 = true := by
  intro pr hpr
  exact matchAt_boundaries hw (finditerFrom_mem hpr).2.2

/-! ## Lemmas about emitted records and counts -/

theorem searchDocument_mem {s : WordSearcher} {fp : List String}
    {doc : Except String DocxDocument} {m : SearchMatch}
    (h : m ∈ searchDocument s fp doc) :
    searchText s m.context = true ∧
      m.match_positions = findMatchesInText s m.context := by
  match doc with
  | .error _ => simp [searchDocument] at h
  | .ok d =>
    unfold searchDocument at h
    rcases List.mem_append.mp h with hp | ht
    · rcases List.mem_filterMap.mp hp with ⟨x, _, hfx⟩
      by_cases hs : searchText s x.2 <;> simp [hs] at hfx
      subst hfx
      exact ⟨hs, rfl⟩
    · rcases List.mem_flatMap.mp ht with ⟨t, _, ht2⟩
      rcases List.mem_flatMap.mp ht2 with ⟨r, _, hr2⟩
      rcases List.mem_filterMap.mp hr2 with ⟨c, _, hfc⟩
      by_cases hs : searchText s c.2 <;> simp [hs] at hfc
      subst hfc
      exact ⟨hs, rfl⟩

theorem searchPdfLoop_mem {s : WordSearcher} {fp : List String} :
    ∀ {n : Nat} {pages : List PageResult} {m : SearchMatch},
      m ∈ searchPdfLoop s fp n pages →
      searchText s m.context = true ∧
        m.match_positions = findMatchesInText s m.context
  | _, [], m, h => by simp [searchPdfLoop] at h
  | n, .raisedErr _ :: _, m, h => by simp [searchPdfLoop] at h
  | n, .ok txt :: rest, m, h => by
    unfold searchPdfLoop at h
    rcases List.mem_append.mp h with h1 | h2
    · split_ifs at h1 with hc
      · rcases List.mem_singleton.mp h1 with rfl
        exact ⟨((Bool.and_eq_true _ _).mp hc).2, rfl⟩
      · simp at h1
    · exact searchPdfLoop_mem h2

theorem searchPdf_mem {s : WordSearcher} {fp : List String}
    {reader : Except String (List PageResult)} {m : SearchMatch}
    (h : m ∈ searchPdf s fp reader) :
    searchText s m.context = true ∧
      m.match_positions = findMatchesInText s m.context := by
  match reader with
  | .error _ => simp [searchPdf] at h
  | .ok pages => exact searchPdfLoop_mem h

theorem length_filterMap_ite {α β : Type} (f : α → β) (p : α → Bool) (l : List α) :
    (l.filterMap (fun x => if p x then some (f x) else none)).length = l.countP p := by
  induction l with
  | nil => rfl
  | cons a t ih =>
    by_cases h : p a <;>
      simp [List.filterMap_cons, h, ih, List.countP_cons]

theorem countP_flatMap {α β : Type} (p : β → Bool) (f : α → List β) (l : List α) :
    (l.flatMap f).countP p = (l.map (fun a => (f a).countP p)).sum := by
  induction l with
  | nil => rfl
  | cons a t ih => simp [List.flatMap_cons, List.countP_append, ih]

theorem countP_enum {α : Type} (q : α → Bool) (l : List α) :
    l.enum.countP (fun p => q p.2) = l.countP q := by
  conv_rhs => rw [← List.enum_map_snd l, List.countP_map]
  rfl

theorem sum_map_enum_eq {α : Type} (f : Nat × α → Nat) (h : α → Nat) (l : List α)
    (hfh : ∀ p : Nat × α, f p = h p.2) :
    (l.enum.map f).sum = (l.map h).sum := by
  have h1 : l.enum.map f = l.enum.map (fun p => h p.2) :=
    List.map_congr_left (fun x _ => hfh x)
  rw [h1]
  conv_rhs => rw [← List.enum_map_snd l, List.map_map]
  rfl

theorem searchDocument_length (s : WordSearcher) (fp : List String) (d : DocxDocument) :
    (searchDocument s fp (Except.ok d)).length
      = (unitsOf d).countP (fun t => searchText s t) := by
  unfold searchDocument unitsOf
  rw [List.length_append, List.countP_append]
  have hpara := length_filterMap_ite
    (fun p : Nat × List Char =>
      (⟨fp, p.2, some ("Paragraph " ++ toString (p.1 + 1)),
        findMatchesInText s p.2⟩ : SearchMatch))
    (fun p : Nat × List Char => searchText s p.2) d.paragraphs.enum
  rw [hpara, countP_enum]
  congr 1
  rw [List.length_flatMap, countP_flatMap]
  apply sum_map_enum_eq
  intro t
  show (t.2.enum.flatMap _).length = _
  rw [List.length_flatMap, countP_flatMap]
  apply sum_map_enum_eq
  intro r
  show (r.2.enum.filterMap _).length = _
  rw [length_filterMap_ite
    (fun c : Nat × List Char =>
      (⟨fp, c.2,
        some ("Table " ++ toString (t.1 + 1) ++ ", Row " ++
              toString (r.1 + 1) ++ ", Column " ++ toString (c.1 + 1)),
        findMatchesInText s c.2⟩ : SearchMatch))
    (fun c : Nat × List Char => searchText s c.2) r.2.enum]
  exact countP_enum _ _

/-! ## Lemmas about the exporters -/

theorem entryCount_append (a b : List WriteEvent) :
    entryCount (a ++ b) = entryCount a + entryCount b := by
  simp [entryCount, List.filter_append]

theorem entryCount_exportHtmlLoop :
    ∀ (rs : List SearchMatch) (current : Option (List String)),
      entryCount (exportHtmlLoop current rs) = rs.length
  | [], current => by cases current <;> rfl
  | r :: rest, current => by
    unfold exportHtmlLoop
    rw [entryCount_append, entryCount_append,
        entryCount_exportHtmlLoop rest (some r.file_path)]
    split_ifs with h <;> cases current <;>
      simp [entryCount, isEntryEvent, List.filter] <;> omega

theorem entryCount_exportMarkdownLoop :
    ∀ (rs : List SearchMatch) (current : Option (List String)),
      entryCount (exportMarkdownLoop current rs) = rs.length
  | [], current => by rfl
  | r :: rest, current => by
    unfold exportMarkdownLoop
    rw [entryCount_append, entryCount_append,
        entryCount_exportMarkdownLoop rest (some r.file_path)]
    split_ifs with h <;> simp [entryCount, isEntryEvent, List.filter] <;> omega

theorem entryCount_exportTextLoop :
    ∀ (rs : List SearchMatch) (current : Option (List String)),
      entryCount (exportTextLoop current rs) = rs.length
  | [], current => by rfl
  | r :: rest, current => by
    unfold exportTextLoop
    rw [entryCount_append, entryCount_append,
        entryCount_exportTextLoop rest (some r.file_path)]
    split_ifs with h <;> simp [entryCount, isEntryEvent, List.filter] <;> omega

theorem entryCount_exportHtml (e : ResultExporter) (rs : List SearchMatch) :
    entryCount (exportHtml e rs) = rs.length := by
  unfold exportHtml
  rw [show WriteEvent.header (htmlHeader e) :: (exportHtmlLoop none rs ++ [.footer htmlFooter])
        = [WriteEvent.header (htmlHeader e)] ++ (exportHtmlLoop none rs ++ [.footer htmlFooter])
      from rfl]
  rw [entryCount_append, entryCount_append, entryCount_exportHtmlLoop]
  simp [entryCount, isEntryEvent, List.filter]

theorem entryCount_exportMarkdown (e : ResultExporter) (rs : List SearchMatch) :
    entryCount (exportMarkdown e rs) = rs.length := by
  unfold exportMarkdown
  rw [entryCount_append, entryCount_exportMarkdownLoop]
  simp [entryCount, isEntryEvent, List.filter]

theorem entryCount_exportText (e : ResultExporter) (rs : List SearchMatch) :
    entryCount (exportText e rs) = rs.length := by
  unfold exportText
  rw [entryCount_append, entryCount_exportTextLoop]
  simp [entryCount, isEntryEvent, List.filter]

/-! ## Lemmas about the file collector -/

theorem mem_dropLast_cons {α : Type} {c a : α} {l : List α}
    (h : c ∈ (a :: l).dropLast) : c = a ∨ c ∈ l.dropLast := by
  cases l with
  | nil => simp at h
  | cons x xs =>
    rw [List.dropLast_cons₂] at h
    rcases List.mem_cons.mp h with h1 | h1
    · exact Or.inl h1
    · exact Or.inr h1

theorem globFrom_single_len {c : GlobComp} {t : FSTree} {h : List String × FileData}
    (hm : h ∈ globFrom [c] t) : h.1.length = 1 := by
  cases t with
  | mk subs files =>
    unfold globFrom at hm
    rcases List.mem_append.mp hm with h1 | h1 <;>
      rcases List.mem_map.mp h1 with ⟨x, _, rfl⟩ <;> rfl

mutual
theorem collectFiles_no_excluded (pats : List (List GlobComp)) (excl : List String)
    (hp : ∀ p ∈ pats, p.length = 1) :
    ∀ (t : FSTree), ∀ h ∈ collectFiles pats excl t, ∀ c ∈ h.1.dropLast, c ∉ excl
  | .mk subs files => by
    intro h hm c hc
    unfold collectFiles at hm
    rcases List.mem_append.mp hm with h1 | h2
    · rcases List.mem_flatMap.mp h1 with ⟨p, hpmem, hpg⟩
      rcases List.length_eq_one.mp (hp p hpmem) with ⟨g, rfl⟩
      have hlen := globFrom_single_len hpg
      rcases List.length_eq_one.mp hlen with ⟨a, ha⟩
      rw [ha] at hc
      simp at hc
    · exact collectFromDirs_no_excluded pats excl hp subs h h2 c hc

theorem collectFromDirs_no_excluded (pats : List (List GlobComp)) (excl : List String)
    (hp : ∀ p ∈ pats, p.length = 1) :
    ∀ (dl : FSDirList), ∀ h ∈ collectFromDirs pats excl dl, ∀ c ∈ h.1.dropLast, c ∉ excl
  | .nil => by
    intro h hm
    simp [collectFromDirs] at hm
  | .cons n t rest => by
    intro h hm c hc
    unfold collectFromDirs at hm
    rcases List.mem_append.mp hm with h1 | h2
    · split_ifs at h1 with hn
      · simp at h1
      · rcases List.mem_map.mp h1 with ⟨h', hh', rfl⟩
        rcases mem_dropLast_cons hc with rfl | hc2
        · exact hn
        · exact collectFiles_no_excluded pats excl hp t h' hh' c hc2
    · exact collectFromDirs_no_excluded pats excl hp rest h h2 c hc
end

theorem searchPdfLoop_raised_append (s : WordSearcher) (fp : List String)
    (msg : String) (post : List PageResult) :
    ∀ (pre : List PageResult) (n : Nat),
      searchPdfLoop s fp n (pre ++ .raisedErr msg :: post) = searchPdfLoop s fp n pre
  | [], n => by simp [searchPdfLoop]
  | .raisedErr m :: rest, n => by simp [searchPdfLoop]
  | .ok t :: rest, n => by
    simp only [List.cons_append, searchPdfLoop, List.append_eq]
    rw [searchPdfLoop_raised_append s fp msg post rest (n + 1)]

theorem positionsWf_of_emitted {s : WordSearcher} {m : SearchMatch}
    (h1 : searchText s m.context = true)
    (h2 : m.match_positions = findMatchesInText s m.context) : PositionsWf m := by
  refine ⟨?_, ?_, ?_⟩
  · rw [h2]
    exact searchText_iff_findMatches.mp h1
  · rw [h2]
    haveI : IsTrans (Nat × Nat) (fun p q : Nat × Nat => p.1 < q.1 ∧ p.2 ≤ q.1) :=
      ⟨fun a b c hab hbc => ⟨by omega, by omega⟩⟩
    exact List.chain'_iff_pairwise.mp findMatches_chain
  · intro pr hpr
    rw [h2] at hpr
    exact findMatches_bounds pr hpr

/-! ## Claim theorems -/

/-- Claim C1, counterexample to the claim as stated: with the whole-word
searcher for the term `-` (no regex, case-insensitive), the text `a-b`
yields the reported occurrence `(1, 2)`, yet the character before its
start is `a`, a word character — so "the character before start is a
non-word character" fails (the `\b` assertion only requires the
word-character status to change). -/
theorem c1_counterexample :
    ∃ pr ∈ findMatchesInText ⟨"-".data, false, true⟩ "a-b".data,
      0 < pr.1 ∧ ∃ c, "a-b".data.get? (pr.1 - 1) = some c ∧ isWordChar c = true := by
  decide

/-- Claim C1 (amended): for every literal (non-regex) search term and both
case flags, every occurrence reported in whole-word mode starts and ends at
a `\b` word boundary of the text (the word-character status changes at both
edges; flanking characters are non-word whenever the matched text starts
and ends with word characters). -/
theorem c1_whole_word_boundaries :
    ∀ (term : List Char) (cs : Bool) (text : List Char),
      ∀ pr ∈ findMatchesInText ⟨term, cs, true⟩ text,
        boundaryAt text pr.1 = true ∧ boundaryAt text pr.2 = true := by
  intro term cs text pr hpr
  exact findMatches_boundaries rfl pr hpr

/-- Witness for C1 at a concrete input: the whole-word occurrence of `cat`
in `a cat` is flanked by word boundaries. -/
theorem c1_whole_word_boundaries_witness :
    boundaryAt "a cat".data 2 = true ∧ boundaryAt "a cat".data 5 = true :=
  c1_whole_word_boundaries "cat".data false "a cat".data (2, 5) (by decide)

/-- Claim C2, counterexample to the claim as stated: a PDF whose second
page raises during extraction returns the one match found on its first
page — not zero matches — because the `try` block wraps the whole page
loop and `matches` already holds the earlier record.  -/
theorem c2_counterexample :
    (searchPdf ⟨"test".data, false, false⟩ ["f.pdf"]
        (.ok [.ok "a test".data, .raisedErr "PdfReadError"])).length = 1 := by
  decide

/-- Claim C2 (amended): an extraction exception is caught and the file
yields exactly the matches accumulated before the failure — zero when
opening/parsing the document itself fails (both for Word and PDF files),
and, for a PDF page that raises mid-loop, exactly the matches of the pages
before it (the pages after the failing one contribute nothing); the
surrounding run continues over the remaining files. -/
theorem c2_extraction_failure_behaviour :
    ∀ (s : WordSearcher) (fp : List String) (msg : String)
      (pre post : List PageResult) (n : Nat),
      searchDocument s fp (.error msg) = [] ∧
      searchPdf s fp (.error msg) = [] ∧
      searchPdfLoop s fp n (pre ++ .raisedErr msg :: post) = searchPdfLoop s fp n pre :=
  fun s fp msg pre post n =>
    ⟨rfl, rfl, searchPdfLoop_raised_append s fp msg post pre n⟩

/-- Claim C3 (confirmed): for every non-empty result list and every
supported format name (case-insensitively `html`, `markdown`/`md`,
`text`/`txt`), the export succeeds and its trace renders exactly one match
entry per `SearchMatch` record. -/
theorem c3_export_count (e : ResultExporter) (results : List SearchMatch)
    (fmt : String) (hne : results ≠ []) (hfmt : strLower fmt ∈ VALID_FORMATS) :
    Option.map (fun out => entryCount out.2) (exportResults e results fmt)
      = some results.length := by
  have hni : results.isEmpty = false := by
    cases results with
    | nil => exact absurd rfl hne
    | cons a l => rfl
  simp only [exportResults, hni, Bool.false_eq_true, if_false, if_pos hfmt]
  simp only [VALID_FORMATS, List.mem_cons, List.not_mem_nil, or_false] at hfmt
  rcases hfmt with h | h | h | h | h <;>
    simp [h, entryCount_exportHtml, entryCount_exportMarkdown, entryCount_exportText]

/-- Witness for C3 at a concrete input: exporting one record as HTML
renders one entry. -/
theorem c3_export_count_witness :
    Option.map (fun out => entryCount out.2)
      (exportResults ⟨"test".data, "/root", "", ""⟩ [oneMatch] "html") = some 1 :=
  c3_export_count ⟨"test".data, "/root", "", ""⟩ [oneMatch] "html"
    (by decide) (by decide)

/-- Claim C4, counterexample to the claim as stated: with the
multi-component glob pattern `venv/*.docx` (which `Path.glob` accepts) and
`venv` in the exclusion set, `_collect_files` still returns
`venv/a.docx` — the glob call descends into the excluded directory even
though `os.walk` pruned it. -/
theorem c4_counterexample :
    ∃ h ∈ collectFiles [[.lit "venv", .starDot "docx"]] ["venv"] treeVenv,
      ∃ c ∈ h.1.dropLast, c ∈ (["venv"] : List String) := by
  decide

/-- Claim C4 (amended): for pattern lists whose patterns are all
single-component (no path separator, as all patterns the tool itself
passes), no path returned by `_collect_files` has a component strictly
below the root and above the entry itself that belongs to the exclusion
set: excluded subtrees are never descended into. -/
theorem c4_no_descent_single_component :
    ∀ (pats : List (List GlobComp)) (excl : List String) (t : FSTree),
      (∀ p ∈ pats, p.length = 1) →
      ∀ h ∈ collectFiles pats excl t, ∀ c ∈ h.1.dropLast, c ∉ excl := by
  intro pats excl t hp
  exact collectFiles_no_excluded pats excl hp t

/-- Witness for C4 at a concrete input: collecting `*.docx` under a root
with subdirectory `docs` and exclusion set `venv` returns
`docs/a.docx`, whose ancestor component `docs` is not excluded. -/
theorem c4_no_descent_witness : "docs" ∉ (["venv"] : List String) :=
  c4_no_descent_single_component [[.starDot "docx"]] ["venv"] treeDocs (by decide)
    (["docs", "a.docx"], fdTest) (by decide) "docs" (by decide)

/-- Claim C5 (confirmed): an empty result list produces no export file —
`ResultExporter.export` returns `None` for it under every format, and
`execute_search` neither invokes the exporter nor records an export while
printing `No matches found.`. -/
theorem c5_no_export_when_empty (e : ResultExporter) (fmt : String)
    (p : SearchParams) (out : RunOutput) :
    exportResults e [] fmt = none ∧
    (executeSearch p = Except.ok out → out.results = [] →
      out.exported = none ∧ "No matches found." ∈ out.messages) := by
  constructor
  · rfl
  · intro hrun hres
    unfold executeSearch at hrun
    cases hcp : compilePattern p.search_term p.case_sensitive p.whole_word p.use_regex with
    | error err => rw [hcp] at hrun; cases hrun
    | ok s =>
      rw [hcp] at hrun
      have hout := Except.ok.inj hrun
      subst hout
      simp only [RunOutput.results] at hres
      simp only [RunOutput.exported, RunOutput.messages, hres]
      constructor
      · cases p.export_format <;> simp
      · simp

/-- Witness for C5 at a concrete input: searching an empty directory with
an HTML export requested exports nothing and reports no matches. -/
theorem c5_no_export_when_empty_witness :
    outEmpty.exported = none ∧ "No matches found." ∈ outEmpty.messages :=
  (c5_no_export_when_empty ⟨"test".data, "/root", "", ""⟩ "html" pEmpty outEmpty).2
    (by decide) (by decide)

/-- Claim C7 (confirmed): with the overlapping patterns `*` and `*.docx`
over a directory holding `a.docx`, `_collect_files` returns the same file
twice (no deduplication), and the search run processes it twice, emitting
its single match in duplicate. -/
theorem c7_duplicate_collection :
    (collectFiles [[.star], [.starDot "docx"]] ["none"] treeDup).map (fun h => h.1)
        = [["a.docx"], ["a.docx"]] ∧
    ¬ ((collectFiles [[.star], [.starDot "docx"]] ["none"] treeDup).map
        (fun h => h.1)).Nodup ∧
    (searchRecursive sTest treeDup [[.star], [.starDot "docx"]] ["none"]).1.length = 2 := by
  decide

/-- Claim C8, counterexample to the claim as stated: a document whose one
paragraph contains two occurrences of `a` yields one `SearchMatch` record,
not two — records are created per matching text unit, not per
occurrence. -/
theorem c8_counterexample :
    (searchDocument ⟨"a".data, false, false⟩ ["d.docx"]
        (.ok ⟨["a a".data], []⟩)).length = 1 ∧
    (findMatchesInText ⟨"a".data, false, false⟩ "a a".data).length = 2 := by
  decide

/-- Claim C8 (amended): `search_document` creates exactly one `SearchMatch`
record per text unit (paragraph or table cell) in which the pattern is
found, and that record's `match_positions` lists all occurrences of the
pattern within the unit — so a unit containing `k` occurrences yields one
record with `k` position pairs, not `k` records. -/
theorem c8_record_per_matching_unit :
    ∀ (s : WordSearcher) (fp : List String) (d : DocxDocument),
      (searchDocument s fp (Except.ok d)).length
          = (unitsOf d).countP (fun t => searchText s t) ∧
      ∀ m ∈ searchDocument s fp (Except.ok d),
        m.match_positions = findMatchesInText s m.context := by
  intro s fp d
  exact ⟨searchDocument_length s fp d, fun m hm => (searchDocument_mem hm).2⟩

/-- Witness for C8 at a concrete input: the single record for the
paragraph `a a` carries both occurrence spans of `a`. -/
theorem c8_record_per_matching_unit_witness :
    oneAMatch.match_positions
      = findMatchesInText ⟨"a".data, false, false⟩ oneAMatch.context :=
  (c8_record_per_matching_unit ⟨"a".data, false, false⟩ ["d.docx"]
      ⟨["a a".data], []⟩).2 oneAMatch (by decide)

/-- Claim C9 (confirmed): every record emitted by `search_document` or
`search_pdf` has non-empty `match_positions`, sorted strictly ascending by
start, pairwise non-overlapping, with every span inside the bounds of the
record's context (the exact text of the matched unit). -/
theorem c9_positions_invariant :
    ∀ (s : WordSearcher) (fp : List String) (doc : Except String DocxDocument)
      (reader : Except String (List PageResult)) (m : SearchMatch),
      (m ∈ searchDocument s fp doc → PositionsWf m) ∧
      (m ∈ searchPdf s fp reader → PositionsWf m) := by
  intro s fp doc reader m
  constructor
  · intro hm
    have h := searchDocument_mem hm
    exact positionsWf_of_emitted h.1 h.2
  · intro hm
    have h := searchPdf_mem hm
    exact positionsWf_of_emitted h.1 h.2

/-- Witness for C9 at a concrete input: the record for `test` in `a test`
satisfies the positions invariant. -/
theorem c9_positions_invariant_witness : PositionsWf oneMatch :=
  (c9_positions_invariant sTest ["d.docx"] (.ok docTest) (.error "e") oneMatch).1
    (by decide)

/-- Claim C10 (confirmed): a file whose lowercased extension is neither
`.docx` nor `.pdf` is returned as zero matches by `process_file` without
any extraction being attempted. -/
theorem c10_other_extension_no_matches (s : WordSearcher) (fp : List String)
    (data : FileData)
    (h1 : (pathSuffix (baseName fp).data).map Char.toLower ≠ ".docx".data)
    (h2 : (pathSuffix (baseName fp).data).map Char.toLower ≠ ".pdf".data) :
    processFile s fp data = [] := by
  simp only [processFile]
  rw [if_neg h1, if_neg h2]

/-- Witness for C10 at a concrete input: a `.txt` file contributes zero
matches. -/
theorem c10_other_extension_no_matches_witness :
    processFile sTest ["notes.txt"] fdTest = [] :=
  c10_other_extension_no_matches sTest ["notes.txt"] fdTest (by decide) (by decide)

end DocSearch
